import Mathlib

/-!
# Verification of `slimcodeml_parser.py`

A shallow embedding of the core of the codeml branch-site output parser:
the per-gene output scanner (`__parse_main_alternative__`, `__parse_main_null__`),
the likelihood-ratio test (`likelihood_ratio_test`), the cohort FDR step
(`fdr_correction`), and the per-site classifier (`filter_aa` with its nested
helpers `detect_unique_aa` and `detect_conserved_aa`).

Modelling conventions:
* Python floats are modelled as `ℚ`; the float-literal parser `float(...)`
  is abstracted as an explicit total argument `pyfloat : String → ℚ`
  (all claims are independent of its values).
* A Python `None`-able attribute is an `Option`.
* A run that raises an uncaught exception (IndexError, KeyError, TypeError,
  UnboundLocalError, ...) is modelled as `none` / a `pyError` outcome; the
  explicit `raise SystemExit` on an unopenable file is a distinct outcome.
* Python `dict` / `OrderedDict` values are association lists updated in
  place (`odUpdate`), preserving insertion order like `OrderedDict`.
-/

namespace SlimCodeml

/-!
String processing is done on the character lists underlying `String`, with
structural-recursive helpers (the embedding stays executable down to the
kernel); `String.mk`/`String.data` mediate between the two views.
-/

/-- Strip leading and trailing whitespace (Python `str.strip()`). -/
def trimChars (l : List Char) : List Char :=
  ((l.dropWhile Char.isWhitespace).reverse.dropWhile Char.isWhitespace).reverse

/-- `s.strip()`. -/
def pyTrim (s : String) : String := String.mk (trimChars s.data)

/-- `s.startswith(pre)`. -/
def pyStartsWith (s pre : String) : Bool := pre.data.isPrefixOf s.data

/-- Split a character list at every character satisfying `p`, keeping empty
segments (the behaviour of Python `str.split(sep)` for a one-character
separator). -/
def splitChars (p : Char → Bool) : List Char → List (List Char)
  | [] => [[]]
  | c :: cs =>
    let r := splitChars p cs
    if p c then [] :: r
    else (c :: r.headD []) :: r.tail

/-- Python `s.split(sep)` for a one-character separator. -/
def pySplitOn (sep : Char) (s : String) : List String :=
  (splitChars (fun c => c = sep) s.data).map String.mk

/-- Python `s.split()` with no arguments: split on whitespace runs, dropping
empty tokens. -/
def pySplit (s : String) : List String :=
  ((splitChars Char.isWhitespace s.data).map String.mk).filter (fun t => t ≠ "")

/-- Substring search underlying Python's `sub in s`. -/
def containsSub : List Char → List Char → Bool
  | _, [] => true
  | [], _ :: _ => false
  | c :: cs, d :: ds => (d :: ds).isPrefixOf (c :: cs) || containsSub cs (d :: ds)

/-- Python's substring test `sub in s`. -/
def strContains (s sub : String) : Bool := containsSub s.data sub.data

/-- Python sequence indexing `l[i]`: non-negative indices from the front,
negative indices from the back, anything else raises IndexError (`none`). -/
def pyIndex {α : Type} (l : List α) (i : Int) : Option α :=
  if 0 ≤ i then l.get? i.toNat
  else if 0 ≤ i + l.length then l.get? (i + l.length).toNat
  else none

/-- Numeric value of a digit list. -/
def digitsVal (l : List Char) : Nat :=
  l.foldl (fun a c => 10 * a + (c.toNat - '0'.toNat)) 0

/-- `int` conversion of a bare digit sequence: ValueError (`none`) when empty
or non-digit. -/
def pyNatParse (l : List Char) : Option Nat :=
  if l ≠ [] ∧ l.all Char.isDigit then some (digitsVal l) else none

/-- Python `int(s)` on a string: optional surrounding whitespace, optional
sign, decimal digits; otherwise ValueError (`none`). -/
def pyInt (s : String) : Option Int :=
  match trimChars s.data with
  | '-' :: ds => (pyNatParse ds).map (fun n => -(n : Int))
  | '+' :: ds => (pyNatParse ds).map (fun n => (n : Int))
  | ds => (pyNatParse ds).map (fun n => (n : Int))

/-- Sequence a list of `Option`s: `none` (a raised exception while building a
Python list comprehension) aborts the whole list. -/
def optList {α : Type} : List (Option α) → Option (List α)
  | [] => some []
  | none :: _ => none
  | some a :: rest => (optList rest).map (a :: ·)

/-- `OrderedDict` update `d[k] = v`: replace in place when the key exists
(keeping its position), append otherwise. -/
def odUpdate {α : Type} (m : List (String × α)) (k : String) (v : α) :
    List (String × α) :=
  if m.any (fun p => p.1 = k) then
    m.map (fun p => if p.1 = k then (k, v) else p)
  else m ++ [(k, v)]

/-- The `codon_table` literal of `filter_aa` (and `check_trend_conserve`). -/
def codonPairs : List (String × Char) :=
  [("ATA", 'I'), ("ATC", 'I'), ("ATT", 'I'), ("ATG", 'M'),
   ("ACA", 'T'), ("ACC", 'T'), ("ACG", 'T'), ("ACT", 'T'),
   ("AAC", 'N'), ("AAT", 'N'), ("AAA", 'K'), ("AAG", 'K'),
   ("AGC", 'S'), ("AGT", 'S'), ("AGA", 'R'), ("AGG", 'R'),
   ("CTA", 'L'), ("CTC", 'L'), ("CTG", 'L'), ("CTT", 'L'),
   ("CCA", 'P'), ("CCC", 'P'), ("CCG", 'P'), ("CCT", 'P'),
   ("CAC", 'H'), ("CAT", 'H'), ("CAA", 'Q'), ("CAG", 'Q'),
   ("CGA", 'R'), ("CGC", 'R'), ("CGG", 'R'), ("CGT", 'R'),
   ("GTA", 'V'), ("GTC", 'V'), ("GTG", 'V'), ("GTT", 'V'),
   ("GCA", 'A'), ("GCC", 'A'), ("GCG", 'A'), ("GCT", 'A'),
   ("GAC", 'D'), ("GAT", 'D'), ("GAA", 'E'), ("GAG", 'E'),
   ("GGA", 'G'), ("GGC", 'G'), ("GGG", 'G'), ("GGT", 'G'),
   ("TCA", 'S'), ("TCC", 'S'), ("TCG", 'S'), ("TCT", 'S'),
   ("TTC", 'F'), ("TTT", 'F'), ("TTA", 'L'), ("TTG", 'L'),
   ("TAC", 'Y'), ("TAT", 'Y'), ("TAA", '_'), ("TAG", '_'),
   ("TGC", 'C'), ("TGT", 'C'), ("TGA", '_'), ("TGG", 'W')]

/-- `codon_table[c]`: KeyError (`none`) when the codon is not in the table. -/
def codon_table (c : String) : Option Char :=
  codonPairs.lookup c

/-- An alignment: the `OrderedDict` from taxon name to its codon list. -/
abbrev Alignment := List (String × List String)

/-- `self.alignment.items()` restricted to one column: the `(sp, aa)` rows at
`position`, Python-indexed; any IndexError/KeyError aborts (`none`). -/
def rowsAt (alignment : Alignment) (position : Int) :
    Option (List (String × Char)) :=
  optList (alignment.map (fun p =>
    ((pyIndex p.2 position).bind codon_table).map (fun a => (p.1, a))))

/-- `[x for x in set(col) if all(col.count(x) >= col.count(y) for y in set(col))]`:
the amino-acid symbols tied for the highest frequency in the column. -/
def mostCommonOf (col : List Char) : List Char :=
  col.dedup.filter (fun x => col.dedup.all (fun y => col.count y ≤ col.count x))

/-- Frequency (as an exact rational) of the first most-common symbol in a
column, `float(col.count(mc[0])) / float(len(col))`. -/
def mostCommonFreq (col : List Char) : ℚ :=
  (col.count ((mostCommonOf col).headD 'X') : ℚ) / (col.length : ℚ)

/-- `self.gene_length` may hold a string token (from the "seed used" fallback
line) or an integer (from an "After deleting gaps" line). -/
inductive GeneLen
  | fromStr (s : String)
  | fromInt (n : Int)
deriving DecidableEq

/-- The attributes of a `PamlPair` object; `none` is an attribute holding
Python `None`. Python's `variable` counter is `variable_aa` here (`variable`
is a Lean keyword). -/
structure PamlPair where
  pvalue : Option ℚ := none
  fdr_value : Option ℚ := none
  alternative_lnL : Option ℚ := none
  null_lnL : Option ℚ := none
  status : Bool := true
  conserved_aa : Option Nat := none
  unique_aa : Option Nat := none
  diverse_aa : Option Nat := none
  all_clade_unique : Option Nat := none
  mostly_unique : Option Nat := none
  mostly_diverse : Option Nat := none
  mostly_conserved : Option Nat := none
  conserved_aa_list : Option (List (List String × List String)) := none
  unique_aa_list : Option (List (List String × List String)) := none
  diverse_aa_list : Option (List (List String × List String)) := none
  mostly_conserved_aa_list : Option (List (List String × List String)) := none
  most_common_aa : Option (List Char) := none
  all_conserved : Option (List (List String × List String)) := none
  all_mostly_conserved : Option (List (List String × List String)) := none
  shared : Option Nat := none
  shared_aa_list : Option (List (List String × List String)) := none
  variable_aa : Option Nat := none
  variable_aa_list : Option (List (List String × List String)) := none
  gene_length : Option GeneLen := none
  alignment : Alignment := []
  selected_aa : List (String × String) := []
  conserved_prop : Option (ℚ × ℚ × ℚ) := none
  neutral_prop : Option (ℚ × ℚ × ℚ) := none
  high_selection_prop : Option (ℚ × ℚ × ℚ) := none
  selection_prop : Option (ℚ × ℚ × ℚ) := none
deriving DecidableEq

instance : Inhabited PamlPair := ⟨{}⟩

/-- `PamlPair.likelihood_ratio_test`, with `scipy`'s `chi2(1).cdf`
abstracted as the argument `chi2cdf`. -/
def likelihood_ratio_test (chi2cdf : ℚ → ℚ) (p : PamlPair) : PamlPair :=
  match p.alternative_lnL, p.null_lnL with
  | some a, some n =>
    let lrt := 2 * (a - n)
    if lrt < 0 then { p with pvalue := some 1 }
    else { p with pvalue := some (1 - chi2cdf lrt) }
  | _, _ => { p with pvalue := some 1 }

/-- The nine per-site outcomes of the classification loop of `filter_aa`:
one per counter, plus `noneC` for the case where `self.most_common_aa` is
empty (empty column) and no counter is touched. -/
inductive SiteClass
  | conservedC | uniqueC | diverseC | mostlyUniqueC | mostlyDiverseC
  | mostlyConservedC | sharedC | variableC | noneC
deriving DecidableEq

/-- Lines 460-486 of the source: the mostly-conserved / shared / variable
checks shared by the clade and no-clade paths.  `cladeAA?` is
`clade_specific_aa` when it was assigned, `none` when the name is unbound
(no clade given): touching it then is an UnboundLocalError (`none` result).
Python's `and` short-circuits, so a frequency below 0.50 falls to the
`variable` branch without touching `clade_specific_aa`. -/
def tailCheck (most_common aa_column : List Char) (cladeAA? : Option (List Char)) :
    Option SiteClass :=
  if most_common ≠ [] then
    if ((aa_column.count (most_common.headD 'X') : ℚ) / (aa_column.length : ℚ)) < 1/2 then
      some .variableC
    else
      match cladeAA? with
      | none => none
      | some cladeAA =>
        if cladeAA.dedup.length = 1 ∧ cladeAA.headD 'X' ∈ most_common then
          some .mostlyConservedC
        else if cladeAA.dedup.length = 2 ∧ most_common.any (fun x => decide (x ∈ cladeAA)) then
          some .sharedC
        else some .variableC
  else some .noneC

/-- The amino acids of the column restricted to clade members
(`clade_specific_aa`, line 437). -/
def cladeAAOf (rows : List (String × Char)) (cl : List String) : List Char :=
  (rows.filter (fun r => decide (r.1 ∈ cl))).map (fun r => r.2)

/-- The amino acids of the column restricted to non-clade members
(`other_aa`, line 438). -/
def otherAAOf (rows : List (String × Char)) (cl : List String) : List Char :=
  (rows.filter (fun r => !decide (r.1 ∈ cl))).map (fun r => r.2)

/-- Lines 436-486 for a site that is not fully conserved and has a clade:
the unique / diverse / mostly-unique / mostly-diverse cascade, falling
through to `tailCheck`.  The guard `self.most_common_aa is not []` on
line 450 is an identity comparison with a fresh list and hence always
true. -/
def classifyClade (rows : List (String × Char)) (aa_column most_common : List Char)
    (cl : List String) : Option (SiteClass × List Char) :=
  let cladeAA := cladeAAOf rows cl
  let otherAA := otherAAOf rows cl
  if cladeAA.dedup.length = 1 ∧ cladeAA.headD 'X' ∉ otherAA then
    some (.uniqueC, most_common)
  else if cladeAA.filter (fun x => decide (x ∈ otherAA)) = [] then
    some (.diverseC, most_common)
  else if cladeAA.filter (fun x => decide (otherAA.count x < cladeAA.count x)) ≠ [] then
    if cladeAA.dedup.length = 1 ∧ cladeAA.headD 'X' ∉ most_common then
      some (.mostlyUniqueC, most_common)
    else if cladeAA.filter (fun x => decide (x ∈ most_common)) = [] then
      some (.mostlyDiverseC, most_common)
    else (tailCheck most_common aa_column (some cladeAA)).map (fun c => (c, most_common))
  else (tailCheck most_common aa_column (some cladeAA)).map (fun c => (c, most_common))

/-- One iteration of the classification loop of `filter_aa` (lines 418-486),
up to the choice of category.  Returns the category together with this
site's `self.most_common_aa`; `none` is an uncaught exception. -/
def classifySite (clade : Option (List String)) (alignment : Alignment)
    (position : Int) : Option (SiteClass × List Char) :=
  match rowsAt alignment position with
  | none => none
  | some rows =>
    let aa_column := rows.map (fun r => r.2)
    let most_common := mostCommonOf aa_column
    if aa_column.dedup.length = 1 then some (.conservedC, most_common)
    else
      match clade with
      | none => (tailCheck most_common aa_column none).map (fun c => (c, most_common))
      | some cl => classifyClade rows aa_column most_common cl

/-- `(clade_codon_list, other_codon_list)` for one column, as recomputed at
each detail-append site of `filter_aa`. -/
def codonSplit (alignment : Alignment) (position : Int) (cl : List String) :
    Option (List String × List String) :=
  match optList ((alignment.filter (fun p => decide (p.1 ∈ cl))).map
          (fun p => pyIndex p.2 position)),
        optList ((alignment.filter (fun p => !decide (p.1 ∈ cl))).map
          (fun p => pyIndex p.2 position)) with
  | some a, some b => some (a, b)
  | _, _ => none

/-- One full iteration of the classification loop of `filter_aa`: category
choice, counter increment and (when `set_aa_columns is True`) detail-list
append.  `none` is an uncaught exception aborting `filter_aa`. -/
def site_step (clade : Option (List String)) (set_aa_columns : Option Bool)
    (p : PamlPair) (aminoacid : String × String) : Option PamlPair :=
  match pyInt aminoacid.1 with
  | none => none
  | some n =>
    let position := n - 1
    match classifySite clade p.alignment position with
    | none => none
    | some (cls, mc) =>
      let p := { p with most_common_aa := some mc }
      match cls with
      | .conservedC =>
        let p := { p with conserved_aa := p.conserved_aa.map (· + 1) }
        match set_aa_columns, clade with
        | some true, some cl =>
          match codonSplit p.alignment position cl with
          | none => none
          | some pr =>
            some { p with conserved_aa_list := p.conserved_aa_list.map (· ++ [pr]) }
        | _, _ => some p
      | .uniqueC => some { p with unique_aa := p.unique_aa.map (· + 1) }
      | .diverseC => some { p with diverse_aa := p.diverse_aa.map (· + 1) }
      | .mostlyUniqueC => some { p with mostly_unique := p.mostly_unique.map (· + 1) }
      | .mostlyDiverseC => some { p with mostly_diverse := p.mostly_diverse.map (· + 1) }
      | .mostlyConservedC =>
        let p := { p with mostly_conserved := p.mostly_conserved.map (· + 1) }
        match set_aa_columns with
        | some true =>
          match clade with
          | none => none
          | some cl =>
            match codonSplit p.alignment position cl with
            | none => none
            | some pr =>
              some { p with mostly_conserved_aa_list := p.mostly_conserved_aa_list.map (· ++ [pr]) }
        | _ => some p
      | .sharedC =>
        let p := { p with shared := p.shared.map (· + 1) }
        match set_aa_columns with
        | some true =>
          match clade with
          | none => none
          | some cl =>
            match codonSplit p.alignment position cl with
            | none => none
            | some pr =>
              some { p with shared_aa_list := p.shared_aa_list.map (· ++ [pr]) }
        | _ => some p
      | .variableC => some { p with variable_aa := p.variable_aa.map (· + 1) }
      | .noneC => some p

/-- Nested helper `detect_unique_aa` of `filter_aa`.  With `taxa_list = None`
and a non-empty alignment the comprehension evaluates `sp in None`, a
TypeError (`none`). -/
def detect_unique_aa (alignment : Alignment) (taxa_list : Option (List String)) :
    Option Nat :=
  if alignment ≠ [] ∧ (alignment.headD ("", [])).2.length > 0 then
    match taxa_list with
    | none => none
    | some cl =>
      (List.range (alignment.headD ("", [])).2.length).foldlM (fun acc i =>
        match optList ((alignment.filter (fun p => decide (p.1 ∈ cl))).map
                (fun p => (p.2.get? i).bind codon_table)),
              optList ((alignment.filter (fun p => !decide (p.1 ∈ cl))).map
                (fun p => (p.2.get? i).bind codon_table)) with
        | some taxa_specific_aa, some other_taxa_aa =>
          if taxa_specific_aa.dedup.length = 1 ∧
             taxa_specific_aa.headD 'X' ∉ other_taxa_aa.dedup then some (acc + 1)
          else some acc
        | _, _ => none) 0
  else some 0

/-- The translated amino-acid column `i` of the alignment
(`[codon_table[char[i]] for sp, char in alignment.items()]`). -/
def columnAt (alignment : Alignment) (i : Nat) : Option (List Char) :=
  optList (alignment.map (fun p => (p.2.get? i).bind codon_table))

/-- `[char[i] for sp, char in alignment.items() if sp in taxa_list]`. -/
def cladeCodonsAt (alignment : Alignment) (cl : List String) (i : Nat) :
    Option (List String) :=
  optList ((alignment.filter (fun p => decide (p.1 ∈ cl))).map (fun p => p.2.get? i))

/-- `[char[i] for sp, char in alignment.items() if sp not in taxa_list]`. -/
def otherCodonsAt (alignment : Alignment) (cl : List String) (i : Nat) :
    Option (List String) :=
  optList ((alignment.filter (fun p => !decide (p.1 ∈ cl))).map (fun p => p.2.get? i))

/-- One column of the loop of `detect_conserved_aa` (lines 346-366). -/
def dca_step (alignment : Alignment) (cl? : Option (List String))
    (selected_positions : List Int)
    (acc : List (List String × List String) × List (List String × List String))
    (i : Nat) :
    Option (List (List String × List String) × List (List String × List String)) :=
  if (i : Int) ∈ selected_positions then some acc
  else
    match columnAt alignment i with
    | none => none
    | some column =>
      let conservedHit := column.dedup.length = 1
      let mostlyHit := mostCommonFreq column > 7/10
      if conservedHit ∨ mostlyHit then
        match cl? with
        | none => none
        | some cl =>
          match cladeCodonsAt alignment cl i, otherCodonsAt alignment cl i with
          | some clade_codons, some other_codons =>
            some (if conservedHit then acc.1 ++ [(clade_codons, other_codons)] else acc.1,
                  if mostlyHit then acc.2 ++ [(clade_codons, other_codons)] else acc.2)
          | _, _ => none
      else some acc

/-- Nested helper `detect_conserved_aa` of `filter_aa`: scans every
non-selected column, collecting `(clade_codons, other_codons)` pairs of the
fully conserved columns (first list) and of the columns whose most common
amino acid has frequency strictly above 0.70 (second list). -/
def detect_conserved_aa (selected_positions : List Int) (alignment : Alignment)
    (taxa_list : Option (List String)) :
    Option (List (List String × List String) × List (List String × List String)) :=
  if alignment ≠ [] ∧ (alignment.headD ("", [])).2.length > 0 then
    (List.range (alignment.headD ("", [])).2.length).foldlM
      (dca_step alignment taxa_list selected_positions) ([], [])
  else some ([], [])

/-- The `preset_dic` literal of `filter_aa`, in insertion order. -/
def preset_dic : List (String × List String) :=
  [("pucciniales_genome",
    ["Puccinia_triticina", "Melampsora_laricis_populina", "Puccinia_graminis"]),
   ("pucciniales",
    ["Puccinia_triticina", "Melampsora_laricis_populina", "Puccinia_graminis",
     "Hemileia_vastatrix"])]

/-- Lines 376-379: substitute a preset clade name by its taxa filtered to
those present in the alignment. -/
def resolveClade (clade : Option (List String)) (alignment : Alignment) :
    Option (List String) :=
  preset_dic.foldl (fun c pr =>
    if c = some [pr.1] then
      some ((pr.2).filter (fun x => alignment.any (fun p => p.1 = x)))
    else c) clade

/-- Lines 405-406: the nine counters initialised to zero in one tuple
assignment. -/
def initCounters (p : PamlPair) : PamlPair :=
  { p with conserved_aa := some 0, unique_aa := some 0, diverse_aa := some 0,
           all_clade_unique := some 0, mostly_conserved := some 0,
           mostly_unique := some 0, mostly_diverse := some 0,
           shared := some 0, variable_aa := some 0 }

/-- Lines 408-415: the detail lists initialised when `set_aa_columns is True`. -/
def initAaLists (p : PamlPair) : PamlPair :=
  { p with conserved_aa_list := some [], unique_aa_list := some [],
           diverse_aa_list := some [], mostly_conserved_aa_list := some [],
           shared_aa_list := some [], variable_aa_list := some [] }

/-- `PamlPair.filter_aa`.  The result is the updated object together with the
method's return value (`none` for Python `None`); an uncaught exception is
`none` overall.  The source's `if self.selected_aa is not []:` is an identity
comparison against a fresh list, hence always true: the `return "NA"` branch
is unreachable. -/
def filter_aa (clade0 : Option (List String)) (set_aa_columns : Option Bool)
    (p : PamlPair) : Option (PamlPair × Option String) :=
  let clade := resolveClade clade0 p.alignment
  match optList (p.selected_aa.map (fun pos => pyInt pos.1)) with
  | none => none
  | some poss =>
    let selected_positions := poss.map (fun n => n - 1)
    let p1 := initCounters p
    let p2 := if set_aa_columns = some true then initAaLists p1 else p1
    match p.selected_aa.foldlM (site_step clade set_aa_columns) p2 with
    | none => none
    | some p3 =>
      match detect_unique_aa p3.alignment clade with
      | none => none
      | some n =>
        let p4 := { p3 with all_clade_unique := some n }
        if set_aa_columns = some true then
          match detect_conserved_aa selected_positions p4.alignment clade with
          | none => none
          | some pr =>
            some ({ p4 with all_conserved := some pr.1,
                            all_mostly_conserved := some pr.2 }, none)
        else some (p4, none)

/-- Mutable local state of the scanning loop of `__parse_main_alternative__`. -/
structure AltState where
  counter : Nat := 0
  alignment_counter : Nat := 0
  fall_back_alignment_counter : Nat := 0
  gene_length : Option GeneLen := none
  alternative_lnL : Option ℚ := none
  proportion_vals : Option (List ℚ) := none
  background_w : Option (List ℚ) := none
  foreground_w : Option (List ℚ) := none
  selected_aa : List (String × String) := []
  alignment : Alignment := []
  conserved_prop : Option (ℚ × ℚ × ℚ) := none
  neutral_prop : Option (ℚ × ℚ × ℚ) := none
  high_selection_prop : Option (ℚ × ℚ × ℚ) := none
  selection_prop : Option (ℚ × ℚ × ℚ) := none
deriving DecidableEq

/-- The body of the scanning loop of `__parse_main_alternative__`
(lines 149-237) for one `line`.  The independent `if` statements run in
sequence against the same `line`; `rest` is what the file iterator still
holds, and the returned `Nat` is how many lines a `next(file_handle)` call
consumed.  `none` is an uncaught exception. -/
def altLine (pyfloat : String → ℚ) (st0 : AltState) (line : String)
    (rest : List String) : Option (AltState × Nat) := do
  let t := pyTrim line
  let mut st := st0
  let mut nskip := 0
  -- line 150: "seed used = "
  if pyStartsWith t "seed used = " then
    st := { st with fall_back_alignment_counter := 1 }
    let gl ← rest.head?                 -- next(file_handle); StopIteration at EOF
    nskip := 1
    if pyTrim gl ≠ "" then
      let tok ← (pySplit (pyTrim gl)).get? 1  -- IndexError with fewer than 2 tokens
      st := { st with gene_length := some (.fromStr tok) }
  -- line 159: "Before deleting alignment gaps"
  if pyStartsWith t "Before deleting alignment gaps" then
    st := { st with fall_back_alignment_counter := 0 }
  -- line 163: "After deleting gaps." (with the dot): int of the line's digits
  if pyStartsWith t "After deleting gaps." then
    let n ← pyNatParse (line.data.filter Char.isDigit)  -- int("") is a ValueError
    st := { st with gene_length := some (.fromInt (n : Int)) }
  -- line 167: "lnL"
  if pyStartsWith t "lnL" then
    let tok ← (pySplit ((pySplitOn ':' line).getLastD "")).head?   -- IndexError
    st := { st with alternative_lnL := some (pyfloat tok) }
  -- line 171: "proportion"
  if pyStartsWith t "proportion" then
    st := { st with proportion_vals := some (((pySplit line).drop 1).map pyfloat) }
  -- line 176: "background w"
  if pyStartsWith t "background w" then
    st := { st with background_w := some (((pySplit line).drop 2).map pyfloat) }
  -- line 181: "foreground w"
  if pyStartsWith t "foreground w" then
    st := { st with foreground_w := some (((pySplit line).drop 2).map pyfloat) }
  -- line 185: "Bayes Empirical Bayes (BEB)"
  if pyStartsWith t "Bayes Empirical Bayes (BEB)" then
    st := { st with counter := 1 }
    let _ ← rest.head?                  -- next(file_handle), value discarded
    nskip := 1
  -- line 190: "The grid"
  if st.counter = 1 ∧ pyStartsWith t "The grid" then
    st := { st with counter := 0 }
  -- line 194: "Printing out site pattern counts" resets the fallback flag
  if st.fall_back_alignment_counter = 1 ∧
      pyStartsWith t "Printing out site pattern counts" then
    st := { st with fall_back_alignment_counter := 0 }
  -- line 198: a BEB table row is kept when its last token carries a "*"
  if st.counter = 1 ∧ t ≠ "" then
    let aa := pySplit line
    if (aa.getLastD "").data.contains '*' then
      st := { st with selected_aa := st.selected_aa ++ [(aa.headD "", aa.getLastD "")] }
  -- line 204: "After deleting gaps" (without requiring the dot)
  if pyStartsWith t "After deleting gaps" then
    if ¬ (strContains line " 0 sites") then
      st := { st with alignment_counter := 1 }
    else
      st := { st with gene_length := some (.fromInt 0) }
  -- line 212: "Printing out site pattern counts" resets the alignment flag
  if pyStartsWith t "Printing out site pattern counts" then
    st := { st with alignment_counter := 0 }
  -- line 216: primary-alignment ingestion
  if (pySplitOn '_' line).length ≠ 1 ∧ st.alignment_counter = 1 then
    let fields := pySplit (pyTrim line)
    st := { st with alignment := odUpdate st.alignment (fields.headD "") (fields.drop 1) }
  -- line 224: fallback ingestion when the alignment dict is non-empty
  if (pySplitOn '_' line).length ≠ 1 ∧ st.fall_back_alignment_counter = 1 ∧
      st.alignment ≠ [] then
    let fields := pySplit (pyTrim line)
    st := { st with alignment := odUpdate st.alignment (fields.headD "") (fields.drop 1) }
  -- line 232: fallback ingestion when the primary flag is off
  if (pySplitOn '_' line).length ≠ 1 ∧ st.fall_back_alignment_counter = 1 ∧
      st.alignment_counter = 0 then
    let fields := pySplit (pyTrim line)
    st := { st with alignment := odUpdate st.alignment (fields.headD "") (fields.drop 1) }
  return (st, nskip)

/-- The scanning loop of `__parse_main_alternative__` over all lines of the
file (`nskip` lines were already consumed by `next(file_handle)` calls). -/
def parseAltLines (pyfloat : String → ℚ) : List String → AltState → Option AltState
  | [], st => some st
  | line :: rest, st =>
    match altLine pyfloat st line rest with
    | none => none
    | some (st', nskip) =>
      if nskip = 0 then parseAltLines pyfloat rest st'
      else
        match rest with
        | [] => some st'
        | _ :: rest' => parseAltLines pyfloat rest' st'

/-- The `else:` clause of the scanning loop (lines 239-249): assemble the four
proportion/omega triples; an unbound name is a caught NameError (attributes
left unset), a too-short list an uncaught IndexError. -/
def assemble_props (st : AltState) : Option AltState :=
  match st.proportion_vals with
  | none => some st
  | some pv =>
    match pv.get? 0 with
    | none => none
    | some p0 =>
      match st.background_w with
      | none => some st
      | some bw =>
        match bw.get? 0 with
        | none => none
        | some b0 =>
          match st.foreground_w with
          | none => some st
          | some fw =>
            match fw.get? 0, pv.get? 1, bw.get? 1, fw.get? 1,
                  pv.get? 2, bw.get? 2, fw.get? 2,
                  pv.get? 3, bw.get? 3, fw.get? 3 with
            | some f0, some p1, some b1, some f1, some p2, some b2, some f2,
              some p3, some b3, some f3 =>
              some { st with conserved_prop := some (p0, b0, f0),
                             neutral_prop := some (p1, b1, f1),
                             high_selection_prop := some (p2, b2, f2),
                             selection_prop := some (p3, b3, f3) }
            | _, _, _, _, _, _, _, _, _, _ => none

/-- A model-output subdirectory: file names paired with `some` contents
(readable) or `none` (present but unreadable). -/
abbrev Dir := List (String × Option (List String))

/-- `"".join(l)`, on the underlying character lists. -/
def strJoin (l : List String) : String :=
  String.mk (l.foldl (fun acc s => acc ++ s.data) [])

/-- `"".join([x for x in folder_contents if file_suffix in x])`. -/
def locate_name (dir : Dir) (file_suffix : String) : String :=
  strJoin ((dir.map (fun f => f.1)).filter
    (fun x => strContains x file_suffix))

/-- `open(file_path)`: succeeds only when the joined name is an existing,
readable file of the subdirectory. -/
def open_file (dir : Dir) (name : String) : Option (List String) :=
  match dir.lookup name with
  | some (some contents) => some contents
  | _ => none

/-- Outcome of one parsing method: a result, the `status = False` early
return, the explicit `raise SystemExit` of the `open` handler, or an
uncaught exception. -/
inductive ParseOutcome (σ : Type)
  | ok (st : σ)
  | invalid
  | systemExit
  | pyError
deriving DecidableEq

/-- `PamlPair.__parse_main_alternative__`, with its file location, the
`file_path == self.folder + subfolder` guard exactly as written (the
comparison omits the `"/"` that `file_path` always contains), the `open`
handler, and the scanning loop. -/
def parse_main_alternative (pyfloat : String → ℚ) (folder : String) (dir : Dir)
    (file_suffix : String) : ParseOutcome AltState :=
  let file_path := folder ++ "/Alternative" ++ "/" ++ locate_name dir file_suffix
  if file_path = folder ++ "/Alternative" then .invalid
  else
    match open_file dir (locate_name dir file_suffix) with
    | none => .systemExit
    | some lines =>
      match parseAltLines pyfloat lines {} with
      | none => .pyError
      | some st =>
        match assemble_props st with
        | none => .pyError
        | some st' => .ok st'

/-- One line of the `__parse_main_null__` scan: only the likelihood is read. -/
def nullLine (pyfloat : String → ℚ) (lnl : Option ℚ) (line : String) :
    Option (Option ℚ) :=
  if pyStartsWith (pyTrim line) "lnL" then
    match (pySplit ((pySplitOn ':' line).getLastD "")).head? with
    | none => none
    | some tok => some (some (pyfloat tok))
  else some lnl

/-- `PamlPair.__parse_main_null__`. -/
def parse_main_null (pyfloat : String → ℚ) (folder : String) (dir : Dir)
    (file_suffix : String) : ParseOutcome (Option ℚ) :=
  let file_path := folder ++ "/Null" ++ "/" ++ locate_name dir file_suffix
  if file_path = folder ++ "/Null" then .invalid
  else
    match open_file dir (locate_name dir file_suffix) with
    | none => .systemExit
    | some lines =>
      match lines.foldlM (nullLine pyfloat) none with
      | none => .pyError
      | some lnl => .ok lnl

/-- One gene folder with its two model subdirectories. -/
structure GeneFolder where
  name : String
  altDir : Dir
  nullDir : Dir

/-- How a run of `PamlPair.__init__` can abort the whole program. -/
inductive PyAbort
  | systemExit
  | pyError
deriving DecidableEq

/-- The attributes a successful alternative scan leaves on the object. -/
def pairOfAlt (st : AltState) : PamlPair :=
  { alternative_lnL := st.alternative_lnL
    gene_length := st.gene_length
    alignment := st.alignment
    selected_aa := st.selected_aa
    conserved_prop := st.conserved_prop
    neutral_prop := st.neutral_prop
    high_selection_prop := st.high_selection_prop
    selection_prop := st.selection_prop }

/-- `PamlPair.__init__`: run the alternative scan, then (even after an
`invalid` early return) the null scan.  `Except.error` is a program abort. -/
def mkPamlPair (pyfloat : String → ℚ) (g : GeneFolder) : Except PyAbort PamlPair :=
  let afterAlt : Except PyAbort PamlPair :=
    match parse_main_alternative pyfloat g.name g.altDir ".mlc" with
    | .systemExit => .error .systemExit
    | .pyError => .error .pyError
    | .invalid => .ok { status := false }
    | .ok st => .ok (pairOfAlt st)
  match afterAlt with
  | .error e => .error e
  | .ok p =>
    match parse_main_null pyfloat g.name g.nullDir ".mlc" with
    | .systemExit => .error .systemExit
    | .pyError => .error .pyError
    | .invalid => .ok { p with status := false }
    | .ok lnl => .ok { p with null_lnL := lnl }

/-- `PamlPairSet.__init__`: build a pair per folder, keeping only those with
`status is True` (the source constructs the kept pair a second time).  An
abort in any gene's construction aborts the whole batch. -/
def paml_pair_set (pyfloat : String → ℚ) (folder_list : List GeneFolder) :
    Except PyAbort (List (String × PamlPair)) :=
  folder_list.foldlM (fun acc g => do
    let paml_object ← mkPamlPair pyfloat g
    if paml_object.status then
      let p2 ← mkPamlPair pyfloat g
      pure (acc ++ [(g.name, p2)])
    else pure acc) []

/-- `PamlPairSet.test_selection`: the likelihood-ratio test on every pair. -/
def test_selection (chi2cdf : ℚ → ℚ) (pairs : List (String × PamlPair)) :
    List (String × PamlPair) :=
  pairs.map (fun g => (g.1, likelihood_ratio_test chi2cdf g.2))

/-- `PamlPairSet.fdr_correction`: collect the non-`None` p-values in order,
hand them to `multipletests` (the external `statsmodels` routine, abstracted
as an argument), and write each corrected value back by gene key. -/
def fdr_correction (multipletests : List ℚ → List ℚ)
    (pairs : List (String × PamlPair)) : List (String × PamlPair) :=
  let pvalue_dict := (pairs.filter (fun g => g.2.pvalue.isSome)).map
    (fun g => (g.1, g.2.pvalue.getD 0))
  let fdr_pvalue_list := multipletests (pvalue_dict.map (fun g => g.2))
  let upd := (pvalue_dict.map (fun g => g.1)).zip fdr_pvalue_list
  pairs.map (fun g =>
    match upd.lookup g.1 with
    | some v => (g.1, { g.2 with fdr_value := some v })
    | none => g)


/-!
## Specification-side definitions, invariants and concrete inputs
-/

/-- An arbitrary but fixed interpretation of Python's `float(...)` parser,
used for concrete runs whose relevant lines carry no float. -/
def pyfloat0 : String → ℚ := fun _ => 0

/-- The p-value rule as the specification words it: `1.0` when either
likelihood is missing, else `statistic = 2 * (alternativeLnL - nullLnL)`,
`1.0` when `statistic < 0`, and `1 - ChiSquareCDF(statistic, df=1)`
otherwise. -/
def lrt_pvalue_spec (chi2cdf : ℚ → ℚ) (alternative null : Option ℚ) : ℚ :=
  match alternative, null with
  | some a, some n =>
    let statistic := 2 * (a - n)
    if statistic < 0 then 1 else 1 - chi2cdf statistic
  | _, _ => 1

/-- The sum of the eight per-selected-site classification counters. -/
def sum8 (p : PamlPair) : Nat :=
  p.conserved_aa.getD 0 + p.unique_aa.getD 0 + p.diverse_aa.getD 0 +
  p.mostly_unique.getD 0 + p.mostly_diverse.getD 0 + p.mostly_conserved.getD 0 +
  p.shared.getD 0 + p.variable_aa.getD 0

/-- All eight per-selected-site classification counters are set. -/
def countersSet (p : PamlPair) : Prop :=
  p.conserved_aa.isSome ∧ p.unique_aa.isSome ∧ p.diverse_aa.isSome ∧
  p.mostly_unique.isSome ∧ p.mostly_diverse.isSome ∧ p.mostly_conserved.isSome ∧
  p.shared.isSome ∧ p.variable_aa.isSome

/-- A record whose BEB scan produced no selected site. -/
def pairEmptySel : PamlPair := { alignment := [("A_1", ["AAA"])], selected_aa := [] }

/-- The object and return value `filter_aa` produces on `pairEmptySel`. -/
def resEmptySel : PamlPair × Option String :=
  (filter_aa (some ["A_1"]) none pairEmptySel).getD default

/-- A record with one selected, non-conserved site whose most common amino
acid reaches frequency 1/2. -/
def pairNoClade : PamlPair :=
  { alignment := [("A_1", ["AAA"]), ("B_1", ["GGG"])],
    selected_aa := [("1", "0.98*")] }

/-- The object and return value `filter_aa` produces on `pairNoClade` when
the clade `["A_1"]` is supplied. -/
def resOneSite : PamlPair × Option String :=
  (filter_aa (some ["A_1"]) none pairNoClade).getD default

/-- Two alignment lines for the same taxon inside the primary-alignment
section, preceded by its entry marker. -/
def linesMultiTaxon : List String :=
  ["After deleting gaps. 6 sites", "T_1  AAA GGG", "T_1  CCC"]

/-- An Alternative subdirectory with no file whose name contains ".mlc". -/
def dirNoMlc : Dir := [("readme.txt", some [])]

/-- A Null subdirectory holding a readable output file. -/
def dirNullOk : Dir := [("out.mlc", some ["lnL x: -5 y"])]

/-- A gene folder whose Alternative subdirectory misses the suffix file. -/
def gMissingAlt : GeneFolder :=
  { name := "gene1", altDir := dirNoMlc, nullDir := dirNullOk }

/-- A gene folder whose located Alternative output file exists but is
unreadable. -/
def gUnreadable : GeneFolder :=
  { name := "g1", altDir := [("a.mlc", none)], nullDir := [("n.mlc", some [])] }

/-- A gene folder whose two output files open fine. -/
def gHealthy : GeneFolder :=
  { name := "g2", altDir := [("a.mlc", some [])], nullDir := [("n.mlc", some [])] }

/-- Ten taxa whose single column holds seven lysines and three glycines:
the most common amino acid has frequency exactly 0.70. -/
def alignTen : Alignment :=
  [("p1", ["AAA"]), ("p2", ["AAA"]), ("p3", ["AAA"]), ("p4", ["AAA"]),
   ("p5", ["AAA"]), ("p6", ["AAA"]), ("p7", ["AAA"]),
   ("q1", ["GGG"]), ("q2", ["GGG"]), ("q3", ["GGG"])]

/-- Seven taxa, one column: the two clade members `t1, t2` carry lysine,
which also occurs once outside the clade; glycine is the most common. -/
def alSeven : Alignment :=
  [("t1", ["AAA"]), ("t2", ["AAA"]), ("t3", ["AAA"]), ("t4", ["GGG"]),
   ("t5", ["GGG"]), ("t6", ["GGG"]), ("t7", ["GGG"])]

/-- The rows of `alSeven` at its single column. -/
def rowsSeven : List (String × Char) := (rowsAt alSeven 0).getD []

/-- Four taxa, one column with three lysines (frequency 0.75 > 0.70). -/
def alignFour : Alignment :=
  [("a1", ["AAA"]), ("a2", ["AAA"]), ("a3", ["AAA"]), ("b1", ["GGG"])]

/-- The number of columns `detect_unique_aa` / `detect_conserved_aa` scan:
the length of the first taxon's sequence (0 for an empty alignment). -/
def numCols (al : Alignment) : Nat := (al.headD ("", [])).2.length

/-- The `(clade_codons, other_codons)` pair recorded for column `i`. -/
def dcaPairAt (al : Alignment) (cl : List String) (i : Nat) :
    List String × List String :=
  ((cladeCodonsAt al cl i).getD [], (otherCodonsAt al cl i).getD [])

/-- Column `i` is non-selected and fully conserved. -/
def dcaConservedP (sel : List Int) (al : Alignment) (i : Nat) : Bool :=
  decide ((i : Int) ∉ sel) &&
    decide (((columnAt al i).getD []).dedup.length = 1)

/-- Column `i` is non-selected and its most common amino acid has frequency
strictly above 0.70. -/
def dcaMostlyP (sel : List Int) (al : Alignment) (i : Nat) : Bool :=
  decide ((i : Int) ∉ sel) &&
    decide (mostCommonFreq ((columnAt al i).getD []) > 7 / 10)

/-- The lists `detect_conserved_aa` produces on `alignFour`. -/
def resFour : List (List String × List String) × List (List String × List String) :=
  (detect_conserved_aa [] alignFour (some ["a1"])).getD ([], [])

/-- A constant stand-in for the chi-square CDF, with values in `[0, 1]`. -/
def cdfHalf : ℚ → ℚ := fun _ => 1 / 2

/-- Two gene records, one with both likelihoods and one with a missing
alternative likelihood. -/
def pairsTwo : List (String × PamlPair) :=
  [("g1", { alternative_lnL := some (-100), null_lnL := some (-105) }),
   ("g2", { alternative_lnL := none, null_lnL := some (-95) })]

/-!
## Theorems
-/

/-- C1: for every gene record, `likelihood_ratio_test` sets `pvalue = 1.0`
if `alternative_lnL` or `null_lnL` is `None`; otherwise, with
`statistic = 2 * (alternative_lnL - null_lnL)`, it sets `pvalue = 1.0` when
`statistic < 0` and `pvalue = 1 - ChiSquareCDF(statistic, df=1)` when
`statistic >= 0` — i.e. the computed p-value coincides with the
specification's formula on every record. -/
theorem lrt_matches_spec (chi2cdf : ℚ → ℚ) (p : PamlPair) :
    (likelihood_ratio_test chi2cdf p).pvalue =
      some (lrt_pvalue_spec chi2cdf p.alternative_lnL p.null_lnL) := by
  cases ha : p.alternative_lnL with
  | none => simp [likelihood_ratio_test, lrt_pvalue_spec, ha]
  | some a =>
    cases hn : p.null_lnL with
    | none => simp [likelihood_ratio_test, lrt_pvalue_spec, ha, hn]
    | some n =>
      simp only [likelihood_ratio_test, lrt_pvalue_spec, ha, hn]
      split <;> rfl

/-- C2 (against the claim): on a record with an empty `selected_aa`,
`filter_aa` does **not** return `"NA"` (the guard `self.selected_aa is not []`
is an identity comparison, always true) — it returns `None` and sets every
classification counter to zero instead of leaving the counters unset. -/
theorem filter_aa_empty_selected_zero_counters :
    filter_aa (some ["A_1"]) none pairEmptySel = some resEmptySel ∧
    resEmptySel.2 ≠ some "NA" ∧
    resEmptySel.1.conserved_aa = some 0 ∧ resEmptySel.1.unique_aa = some 0 ∧
    resEmptySel.1.diverse_aa = some 0 ∧ resEmptySel.1.mostly_unique = some 0 ∧
    resEmptySel.1.mostly_diverse = some 0 ∧ resEmptySel.1.mostly_conserved = some 0 ∧
    resEmptySel.1.shared = some 0 ∧ resEmptySel.1.variable_aa = some 0 := by
  refine ⟨by decide, by decide, ?_, ?_, ?_, ?_, ?_, ?_, ?_, ?_⟩ <;> decide

unseal Rat.mul Rat.inv Rat.add Rat.sub in
/-- C4 (against the claim): with a non-empty `selected_aa` and no clade,
`filter_aa` does **not** complete without exception: on `pairNoClade` the
frequency test passes 0.50 and the unassigned `clade_specific_aa` is touched
(an UnboundLocalError), so the whole call aborts (`none`). -/
theorem filter_aa_no_clade_crashes : filter_aa none none pairNoClade = none := by
  decide

/-- C5 (against the claim): a taxon whose sequence spans two lines of the
alignment section does **not** accumulate its codons — the second line's
codons replace the first line's in the alignment mapping. -/
theorem alignment_lines_overwritten_not_appended :
    (parseAltLines pyfloat0 linesMultiTaxon {}).map (fun st => st.alignment) =
      some [("T_1", ["CCC"])] ∧
    (parseAltLines pyfloat0 linesMultiTaxon {}).map (fun st => st.alignment) ≠
      some [("T_1", ["AAA", "GGG", "CCC"])] :=
  ⟨by decide, by decide⟩

/-- C5 (amended): while the primary-alignment mode is active, a line holding
an underscore-delimited taxon token is split into the taxon identifier and
its codon tokens, and those codons are stored as the taxon's sequence in the
alignment mapping, **replacing** any previously stored sequence `q` for that
taxon (multi-line sequences keep only the last line). -/
theorem alignment_line_replaces_sequence (pyfloat : String → ℚ) (q : List String) :
    parseAltLines pyfloat ["T_1  CCC"]
      { alignment_counter := 1, alignment := [("T_1", q)] } =
      some { alignment_counter := 1, alignment := [("T_1", ["CCC"])] } := rfl

/-- C9 (against the claim): when no file name contains the suffix, the
`file_path == self.folder + subfolder` guard never fires (`file_path` always
carries an extra `"/"`), so the record is **not** marked invalid; instead the
`open` of the directory path fails and `raise SystemExit` aborts the whole
batch, so the gene is not quietly excluded. -/
theorem missing_suffix_file_causes_system_exit :
    parse_main_alternative pyfloat0 "gene1" dirNoMlc ".mlc" = .systemExit ∧
    parse_main_alternative pyfloat0 "gene1" dirNoMlc ".mlc" ≠ .invalid ∧
    paml_pair_set pyfloat0 [gMissingAlt] = .error .systemExit :=
  ⟨by decide, by decide, rfl⟩

/-- C6 (against the claim): an unreadable model-output file is **not**
contained to its own gene: with the unreadable gene first, the whole batch
construction aborts with `SystemExit` and the healthy second gene is never
processed. -/
theorem unreadable_file_aborts_batch_example :
    paml_pair_set pyfloat0 [gUnreadable, gHealthy] = .error .systemExit := rfl

/-- A non-empty list has an element of maximal `f`-value. -/
theorem exists_max_on {α : Type} (l : List α) (f : α → Nat) (h : l ≠ []) :
    ∃ x ∈ l, ∀ y ∈ l, f y ≤ f x := by
  induction l with
  | nil => exact absurd rfl h
  | cons a t ih =>
    cases t with
    | nil => exact ⟨a, List.mem_singleton_self a, by simp⟩
    | cons b u =>
      obtain ⟨x, hx, hmax⟩ := ih (by simp)
      by_cases hfa : f x ≤ f a
      · refine ⟨a, List.mem_cons_self a _, fun y hy => ?_⟩
        rcases List.mem_cons.mp hy with rfl | hy
        · exact le_refl _
        · exact le_trans (hmax y hy) hfa
      · refine ⟨x, List.mem_cons_of_mem _ hx, fun y hy => ?_⟩
        rcases List.mem_cons.mp hy with rfl | hy
        · exact le_of_not_le hfa
        · exact hmax y hy

/-- A non-empty column has a non-empty most-common-symbol list. -/
theorem mostCommonOf_ne_nil (col : List Char) (h : col ≠ []) :
    mostCommonOf col ≠ [] := by
  have hd : col.dedup ≠ [] := by
    simpa [List.dedup_eq_nil] using h
  obtain ⟨x, hx, hmax⟩ := exists_max_on col.dedup (fun y => col.count y) hd
  have hmem : x ∈ mostCommonOf col := by
    unfold mostCommonOf
    refine List.mem_filter.mpr ⟨hx, ?_⟩
    simp only [List.all_eq_true, decide_eq_true_eq]
    exact fun y hy => hmax y hy
  intro hempty
  rw [hempty] at hmem
  exact absurd hmem (List.not_mem_nil x)

/-- `tailCheck` only ever yields the mostly-conserved, shared or variable
categories — or no category at all when the most-common list is empty. -/
theorem tailCheck_cases (mc col : List Char) (x : Option (List Char))
    (c : SiteClass) (h : tailCheck mc col x = some c) :
    c = .mostlyConservedC ∨ c = .sharedC ∨ c = .variableC ∨
      (c = .noneC ∧ mc = []) := by
  by_cases hmc : mc ≠ []
  · rw [tailCheck.eq_def, if_pos hmc] at h
    by_cases hf : ((col.count (mc.headD 'X') : ℚ) / (col.length : ℚ)) < 1 / 2
    · rw [if_pos hf] at h
      cases h
      exact Or.inr (Or.inr (Or.inl rfl))
    · rw [if_neg hf] at h
      cases x with
      | none => cases h
      | some ca =>
        dsimp only at h
        by_cases h1 : ca.dedup.length = 1 ∧ ca.headD 'X' ∈ mc
        · rw [if_pos h1] at h
          cases h
          exact Or.inl rfl
        · rw [if_neg h1] at h
          by_cases h2 : ca.dedup.length = 2 ∧
              (mc.any (fun y => decide (y ∈ ca))) = true
          · rw [if_pos h2] at h
            cases h
            exact Or.inr (Or.inl rfl)
          · rw [if_neg h2] at h
            cases h
            exact Or.inr (Or.inr (Or.inl rfl))
  · rw [tailCheck.eq_def, if_neg hmc] at h
    cases h
    exact Or.inr (Or.inr (Or.inr ⟨rfl, not_not.mp hmc⟩))

/-- All elements of a list whose dedup is a singleton are equal to its
(default-completed) head. -/
theorem eq_headD_of_dedup_length_one {α : Type} [DecidableEq α] (l : List α)
    (d : α) (h : l.dedup.length = 1) : ∀ x ∈ l, x = l.headD d := by
  obtain ⟨a, ha⟩ := List.length_eq_one.mp h
  have hall : ∀ x ∈ l, x = a := by
    intro x hx
    have : x ∈ l.dedup := List.mem_dedup.mpr hx
    rw [ha] at this
    exact List.mem_singleton.mp this
  intro x hx
  cases l with
  | nil => exact absurd hx (List.not_mem_nil x)
  | cons b t =>
    rw [List.headD_cons]
    rw [hall x hx, hall b (List.mem_cons_self b t)]

/-- With a clade supplied, the clade cascade of the classification loop never
ends without choosing a category. -/
theorem classifyClade_ne_noneC (rows : List (String × Char)) (mc2 : List Char)
    (cl : List String) (cls : SiteClass)
    (h : classifyClade rows (rows.map (fun r => r.2))
          (mostCommonOf (rows.map (fun r => r.2))) cl = some (cls, mc2)) :
    cls ≠ .noneC := by
  unfold classifyClade at h
  simp only at h
  split at h
  · obtain ⟨h1, _⟩ := Prod.mk.injEq .. ▸ Option.some.inj h
    cases h1; decide
  · split at h
    · obtain ⟨h1, _⟩ := Prod.mk.injEq .. ▸ Option.some.inj h
      cases h1; decide
    · rename_i hne2
      have hclade : cladeAAOf rows cl ≠ [] := by
        intro hcnil
        exact hne2 (by rw [hcnil]; rfl)
      have hrowsne : rows ≠ [] := by
        intro hr
        exact hclade (by rw [hr]; rfl)
      have hmc : mostCommonOf (rows.map (fun r => r.2)) ≠ [] := by
        refine mostCommonOf_ne_nil _ ?_
        simpa using hrowsne
      split at h
      · split at h
        · obtain ⟨h1, _⟩ := Prod.mk.injEq .. ▸ Option.some.inj h
          cases h1; decide
        · split at h
          · obtain ⟨h1, _⟩ := Prod.mk.injEq .. ▸ Option.some.inj h
            cases h1; decide
          · obtain ⟨c, hc, hceq⟩ := Option.map_eq_some'.mp h
            obtain ⟨h1, _⟩ := Prod.mk.injEq .. ▸ hceq
            cases h1
            rcases tailCheck_cases _ _ _ _ hc with h2 | h2 | h2 | ⟨_, hmcnil⟩
            · cases h2; decide
            · cases h2; decide
            · cases h2; decide
            · exact absurd hmcnil hmc
      · obtain ⟨c, hc, hceq⟩ := Option.map_eq_some'.mp h
        obtain ⟨h1, _⟩ := Prod.mk.injEq .. ▸ hceq
        cases h1
        rcases tailCheck_cases _ _ _ _ hc with h2 | h2 | h2 | ⟨_, hmcnil⟩
        · cases h2; decide
        · cases h2; decide
        · cases h2; decide
        · exact absurd hmcnil hmc

/-- With a clade supplied, a successful site classification always picks a
real category. -/
theorem classifySite_clade_ne_noneC (cl : List String) (al : Alignment)
    (pos : Int) (cls : SiteClass) (mc : List Char)
    (h : classifySite (some cl) al pos = some (cls, mc)) : cls ≠ .noneC := by
  unfold classifySite at h
  cases hrows : rowsAt al pos with
  | none => rw [hrows] at h; cases h
  | some rows =>
    rw [hrows] at h
    simp only at h
    split at h
    · obtain ⟨h1, _⟩ := Prod.mk.injEq .. ▸ Option.some.inj h
      cases h1; decide
    · exact classifyClade_ne_noneC rows mc cl cls h

/-- One successful iteration of the classification loop with a clade adds
exactly one to the counter total and keeps every counter set. -/
theorem site_step_sum (cl : List String) (saa : Option Bool) (p p' : PamlPair)
    (am : String × String)
    (h : site_step (some cl) saa p am = some p') (hc : countersSet p) :
    sum8 p' = sum8 p + 1 ∧ countersSet p' := by
  unfold site_step at h
  cases hint : pyInt am.1 with
  | none => rw [hint] at h; cases h
  | some n =>
    rw [hint] at h
    simp only at h
    cases hcls : classifySite (some cl) p.alignment (n - 1) with
    | none => rw [hcls] at h; cases h
    | some pr =>
      obtain ⟨cls, mc⟩ := pr
      rw [hcls] at h
      simp only at h
      have hne := classifySite_clade_ne_noneC cl p.alignment (n - 1) cls mc hcls
      obtain ⟨e1, e2, e3, e4, e5, e6, e7, e8⟩ := hc
      rw [Option.isSome_iff_exists] at e1 e2 e3 e4 e5 e6 e7 e8
      obtain ⟨k1, e1⟩ := e1
      obtain ⟨k2, e2⟩ := e2
      obtain ⟨k3, e3⟩ := e3
      obtain ⟨k4, e4⟩ := e4
      obtain ⟨k5, e5⟩ := e5
      obtain ⟨k6, e6⟩ := e6
      obtain ⟨k7, e7⟩ := e7
      obtain ⟨k8, e8⟩ := e8
      cases cls with
      | noneC => exact absurd rfl hne
      | uniqueC =>
        simp only at h
        obtain rfl := Option.some.inj h
        refine ⟨?_, ?_⟩ <;>
          simp [sum8, countersSet, e1, e2, e3, e4, e5, e6, e7, e8] <;> omega
      | diverseC =>
        simp only at h
        obtain rfl := Option.some.inj h
        refine ⟨?_, ?_⟩ <;>
          simp [sum8, countersSet, e1, e2, e3, e4, e5, e6, e7, e8] <;> omega
      | mostlyUniqueC =>
        simp only at h
        obtain rfl := Option.some.inj h
        refine ⟨?_, ?_⟩ <;>
          simp [sum8, countersSet, e1, e2, e3, e4, e5, e6, e7, e8] <;> omega
      | mostlyDiverseC =>
        simp only at h
        obtain rfl := Option.some.inj h
        refine ⟨?_, ?_⟩ <;>
          simp [sum8, countersSet, e1, e2, e3, e4, e5, e6, e7, e8] <;> omega
      | variableC =>
        simp only at h
        obtain rfl := Option.some.inj h
        refine ⟨?_, ?_⟩ <;>
          simp [sum8, countersSet, e1, e2, e3, e4, e5, e6, e7, e8] <;> omega
      | conservedC =>
        simp only at h
        split at h
        · split at h
          · cases h
          · obtain rfl := Option.some.inj h
            refine ⟨?_, ?_⟩ <;>
              simp [sum8, countersSet, e1, e2, e3, e4, e5, e6, e7, e8] <;> omega
        · obtain rfl := Option.some.inj h
          refine ⟨?_, ?_⟩ <;>
            simp [sum8, countersSet, e1, e2, e3, e4, e5, e6, e7, e8] <;> omega
      | mostlyConservedC =>
        simp only at h
        split at h
        · split at h
          · cases h
          · obtain rfl := Option.some.inj h
            refine ⟨?_, ?_⟩ <;>
              simp [sum8, countersSet, e1, e2, e3, e4, e5, e6, e7, e8] <;> omega
        · obtain rfl := Option.some.inj h
          refine ⟨?_, ?_⟩ <;>
            simp [sum8, countersSet, e1, e2, e3, e4, e5, e6, e7, e8] <;> omega
      | sharedC =>
        simp only at h
        split at h
        · split at h
          · cases h
          · obtain rfl := Option.some.inj h
            refine ⟨?_, ?_⟩ <;>
              simp [sum8, countersSet, e1, e2, e3, e4, e5, e6, e7, e8] <;> omega
        · obtain rfl := Option.some.inj h
          refine ⟨?_, ?_⟩ <;>
            simp [sum8, countersSet, e1, e2, e3, e4, e5, e6, e7, e8] <;> omega

/-- The classification loop over all selected sites (with a clade) adds the
number of sites to the counter total. -/
theorem loop_sum (cl : List String) (saa : Option Bool)
    (sites : List (String × String)) :
    ∀ (p p' : PamlPair),
      sites.foldlM (site_step (some cl) saa) p = some p' → countersSet p →
      sum8 p' = sum8 p + sites.length ∧ countersSet p' := by
  induction sites with
  | nil =>
    intro p p' h hc
    simp only [List.foldlM_nil] at h
    obtain rfl := Option.some.inj h
    exact ⟨by simp, hc⟩
  | cons a t ih =>
    intro p p' h hc
    rw [List.foldlM_cons] at h
    obtain ⟨q, hq, hrest⟩ := Option.bind_eq_some.mp h
    obtain ⟨hs, hcq⟩ := site_step_sum cl saa p q a hq hc
    obtain ⟨ht, hcp'⟩ := ih q p' hrest hcq
    refine ⟨?_, hcp'⟩
    rw [ht, hs, List.length_cons]
    omega

/-- A supplied clade stays supplied through preset resolution. -/
theorem resolveClade_some (cl : List String) (al : Alignment) :
    ∃ cl2, resolveClade (some cl) al = some cl2 := by
  unfold resolveClade preset_dic
  simp only [List.foldl_cons, List.foldl_nil]
  split
  · split
    · exact ⟨_, rfl⟩
    · exact ⟨_, rfl⟩
  · split
    · exact ⟨_, rfl⟩
    · exact ⟨_, rfl⟩

/-- C3: when a clade is supplied and `filter_aa` completes without an
exception, every selected site lands in exactly one category, so the eight
per-site counters sum to `len(selected_aa)` (and in particular never exceed
it). -/
theorem filter_aa_counter_sum (cl : List String) (saa : Option Bool)
    (p : PamlPair) (res : PamlPair × Option String)
    (h : filter_aa (some cl) saa p = some res) :
    sum8 res.1 = p.selected_aa.length := by
  obtain ⟨cl2, hcl2⟩ := resolveClade_some cl p.alignment
  unfold filter_aa at h
  rw [hcl2] at h
  simp only at h
  split at h
  · cases h
  · rename_i poss hpos
    split at h
    · cases h
    · rename_i p3 hloop
      have hinit : countersSet
          (if saa = some true then initAaLists (initCounters p)
           else initCounters p) := by
        split <;> simp [countersSet, initAaLists, initCounters]
      have hsum0 : sum8
          (if saa = some true then initAaLists (initCounters p)
           else initCounters p) = 0 := by
        split <;> simp [sum8, initAaLists, initCounters]
      obtain ⟨hs, _⟩ := loop_sum cl2 saa p.selected_aa _ p3 hloop hinit
      rw [hsum0] at hs
      split at h
      · cases h
      · rename_i ncount hdu
        split at h
        · split at h
          · cases h
          · rename_i pr2 hdc
            obtain rfl := Option.some.inj h
            simpa using hs
        · obtain rfl := Option.some.inj h
          simpa using hs

/-- Witness for C3 on `pairNoClade` with clade `["A_1"]`. -/
theorem filter_aa_counter_sum_witness :
    filter_aa (some ["A_1"]) none pairNoClade = some resOneSite ∧
    sum8 resOneSite.1 = pairNoClade.selected_aa.length :=
  ⟨by decide,
   filter_aa_counter_sum ["A_1"] none pairNoClade resOneSite (by decide)⟩

/-- C7: a selected site (with a clade) is counted mostly-unique only if the
clade column is homogeneous (`|set(cladeAA)| = 1`), every clade amino acid
occurs strictly more often inside the clade than outside it, and that
symbol is not among the most common symbols of the full column. -/
theorem mostly_unique_conditions (cl : List String) (al : Alignment) (pos : Int)
    (rows : List (String × Char)) (mc : List Char)
    (hrows : rowsAt al pos = some rows)
    (h : classifySite (some cl) al pos = some (.mostlyUniqueC, mc)) :
    (cladeAAOf rows cl).dedup.length = 1 ∧
    (∀ x ∈ cladeAAOf rows cl,
        (otherAAOf rows cl).count x < (cladeAAOf rows cl).count x) ∧
    mc = mostCommonOf (rows.map (fun r => r.2)) ∧
    (cladeAAOf rows cl).headD 'X' ∉ mc := by
  unfold classifySite at h
  rw [hrows] at h
  simp only at h
  split at h
  · exact absurd (Prod.mk.injEq .. ▸ Option.some.inj h) (by simp)
  · unfold classifyClade at h
    simp only at h
    split at h
    · exact absurd (Option.some.inj h) (by simp)
    · split at h
      · exact absurd (Option.some.inj h) (by simp)
      · split at h
        · rename_i h450
          split at h
          · rename_i hinner
            obtain ⟨hmc, hmceq⟩ := Prod.mk.injEq .. ▸ Option.some.inj h
            obtain ⟨hlen, hnotin⟩ := hinner
            refine ⟨hlen, ?_, hmceq.symm, by rw [← hmceq]; exact hnotin⟩
            obtain ⟨x0, hx0⟩ :=
              List.exists_mem_of_ne_nil _ h450
            obtain ⟨hx0mem, hx0lt⟩ := List.mem_filter.mp hx0
            have hx0lt := of_decide_eq_true hx0lt
            intro x hx
            have hxeq := eq_headD_of_dedup_length_one _ 'X' hlen x hx
            have hx0eq := eq_headD_of_dedup_length_one _ 'X' hlen x0 hx0mem
            rw [hxeq, ← hx0eq]
            exact hx0lt
          · split at h
            · exact absurd (Option.some.inj h) (by simp)
            · obtain ⟨c, hc, hceq⟩ := Option.map_eq_some'.mp h
              rcases tailCheck_cases _ _ _ _ hc with h1 | h1 | h1 | ⟨h1, _⟩ <;>
                rw [h1] at hceq <;> exact absurd (Prod.mk.injEq .. ▸ hceq) (by simp)
        · obtain ⟨c, hc, hceq⟩ := Option.map_eq_some'.mp h
          rcases tailCheck_cases _ _ _ _ hc with h1 | h1 | h1 | ⟨h1, _⟩ <;>
            rw [h1] at hceq <;> exact absurd (Prod.mk.injEq .. ▸ hceq) (by simp)

/-- Witness for C7 at the column of `alSeven` with clade `{t1, t2}`. -/
theorem mostly_unique_conditions_witness :
    rowsAt alSeven 0 = some rowsSeven ∧
    classifySite (some ["t1", "t2"]) alSeven 0 =
      some (.mostlyUniqueC, ['G']) ∧
    (cladeAAOf rowsSeven ["t1", "t2"]).dedup.length = 1 ∧
    (cladeAAOf rowsSeven ["t1", "t2"]).headD 'X' ∉ (['G'] : List Char) :=
  ⟨by decide, by decide,
   (mostly_unique_conditions ["t1", "t2"] alSeven 0 rowsSeven ['G']
      (by decide) (by decide)).1,
   (mostly_unique_conditions ["t1", "t2"] alSeven 0 rowsSeven ['G']
      (by decide) (by decide)).2.2.2⟩

unseal Rat.mul Rat.inv Rat.add Rat.sub in
/-- C8 (against the claim): a non-selected column whose most-common-residue
frequency is exactly 0.70 (so `≥ 0.70` holds) is **not** recorded in
`all_mostly_conserved` — the source's test is the strict `> 0.70`. -/
theorem mostly_conserved_at_070_not_recorded :
    detect_conserved_aa [] alignTen (some ["p1"]) = some ([], []) ∧
    (columnAt alignTen 0).map mostCommonFreq = some (7 / 10) :=
  ⟨by decide, by decide⟩

/-- The column loop of `detect_conserved_aa` collects exactly the
non-selected fully-conserved columns and the non-selected strictly-over-0.70
columns, in index order. -/
theorem dca_loop_spec (al : Alignment) (cl : List String) (sel : List Int)
    (is : List Nat) :
    ∀ (acc res :
        List (List String × List String) × List (List String × List String)),
      is.foldlM (dca_step al (some cl) sel) acc = some res →
      res.1 = acc.1 ++ (is.filter (dcaConservedP sel al)).map (dcaPairAt al cl) ∧
      res.2 = acc.2 ++ (is.filter (dcaMostlyP sel al)).map (dcaPairAt al cl) := by
  induction is with
  | nil =>
    intro acc res h
    simp only [List.foldlM_nil] at h
    obtain rfl := Option.some.inj h
    simp
  | cons i t ih =>
    intro acc res h
    rw [List.foldlM_cons] at h
    obtain ⟨q, hq, hrest⟩ := Option.bind_eq_some.mp h
    obtain ⟨ih1, ih2⟩ := ih q res hrest
    unfold dca_step at hq
    split at hq
    · rename_i hin
      obtain rfl := Option.some.inj hq
      rw [ih1, ih2]
      have hp1 : dcaConservedP sel al i = false := by
        simp [dcaConservedP, hin]
      have hp2 : dcaMostlyP sel al i = false := by
        simp [dcaMostlyP, hin]
      constructor <;> simp [List.filter_cons, hp1, hp2]
    · rename_i hnin
      cases hcol : columnAt al i with
      | none => rw [hcol] at hq; cases hq
      | some column =>
        rw [hcol] at hq
        simp only at hq
        have hgetD : (columnAt al i).getD [] = column := by rw [hcol]; rfl
        by_cases hhit : column.dedup.length = 1 ∨ mostCommonFreq column > 7 / 10
        · rw [if_pos hhit] at hq
          cases hcc : cladeCodonsAt al cl i with
          | none =>
            rw [hcc] at hq
            simp only at hq
            cases hq
          | some cc =>
            rw [hcc] at hq
            cases hoc : otherCodonsAt al cl i with
            | none =>
              rw [hoc] at hq
              simp only at hq
              cases hq
            | some oc =>
              rw [hoc] at hq
              simp only at hq
              obtain rfl := Option.some.inj hq
              have hpair : dcaPairAt al cl i = (cc, oc) := by
                simp [dcaPairAt, hcc, hoc]
              have hp1 : dcaConservedP sel al i =
                  decide (column.dedup.length = 1) := by
                simp [dcaConservedP, hnin, hgetD]
              have hp2 : dcaMostlyP sel al i =
                  decide (mostCommonFreq column > 7 / 10) := by
                simp [dcaMostlyP, hnin, hgetD]
              constructor
              · rw [ih1]
                by_cases hcons : column.dedup.length = 1
                · simp [List.filter_cons, hp1, hcons, hpair]
                · simp [List.filter_cons, hp1, hcons]
              · rw [ih2]
                by_cases hmost : mostCommonFreq column > 7 / 10
                · simp [List.filter_cons, hp2, hmost, hpair]
                · simp [List.filter_cons, hp2, hmost]
        · rw [if_neg hhit] at hq
          obtain rfl := Option.some.inj hq
          rw [not_or] at hhit
          obtain ⟨hcons, hmost⟩ := hhit
          have hp1 : dcaConservedP sel al i = false := by
            simp [dcaConservedP, hgetD, hcons]
          have hp2 : dcaMostlyP sel al i = false := by
            simp [dcaMostlyP, hgetD, hmost]
          rw [ih1, ih2]
          constructor <;> simp [List.filter_cons, hp1, hp2]

/-- C8 (amended): for a non-selected alignment column, `detect_conserved_aa`
records the `(cladeCodons, otherCodons)` pair in `all_mostly_conserved`
exactly when the most common amino acid's frequency is **strictly greater
than** 0.70, and in `all_conserved` exactly when the column is fully
conserved; columns at selected positions are never recorded in either
list. -/
theorem detect_conserved_characterization (sel : List Int) (al : Alignment)
    (cl : List String)
    (res : List (List String × List String) × List (List String × List String))
    (h : detect_conserved_aa sel al (some cl) = some res) :
    res.1 = ((List.range (numCols al)).filter (dcaConservedP sel al)).map
        (dcaPairAt al cl) ∧
    res.2 = ((List.range (numCols al)).filter (dcaMostlyP sel al)).map
        (dcaPairAt al cl) := by
  unfold detect_conserved_aa at h
  split at h
  · exact dca_loop_spec al cl sel (List.range (numCols al)) ([], []) res h
  · rename_i hcond
    obtain rfl := Option.some.inj h
    have hz : numCols al = 0 := by
      unfold numCols
      by_cases hal : al = []
      · rw [hal]; rfl
      · push_neg at hcond
        have hl := hcond hal
        omega
    rw [hz]
    exact ⟨by simp, by simp⟩

unseal Rat.mul Rat.inv Rat.add Rat.sub in
/-- Witness for the amended C8 on `alignFour`: the 0.75-frequency column is
recorded in `all_mostly_conserved` and the characterization holds. -/
theorem detect_conserved_characterization_witness :
    detect_conserved_aa [] alignFour (some ["a1"]) = some resFour ∧
    resFour.1 = ((List.range (numCols alignFour)).filter
        (dcaConservedP [] alignFour)).map (dcaPairAt alignFour ["a1"]) ∧
    resFour.2 = ((List.range (numCols alignFour)).filter
        (dcaMostlyP [] alignFour)).map (dcaPairAt alignFour ["a1"]) :=
  ⟨by decide,
   (detect_conserved_characterization [] alignFour ["a1"] resFour (by decide)).1,
   (detect_conserved_characterization [] alignFour ["a1"] resFour (by decide)).2⟩

/-- C6 (amended): a gene whose located model-output file cannot be opened is
fatal for the **whole batch**: `PamlPair.__init__` raises `SystemExit` (or
lets the exception escape), and `PamlPairSet.__init__` stops there — no
later gene of the folder list is processed. -/
theorem unreadable_file_aborts_batch (pyfloat : String → ℚ) (g : GeneFolder)
    (rest : List GeneFolder) (e : PyAbort)
    (h : mkPamlPair pyfloat g = .error e) :
    paml_pair_set pyfloat (g :: rest) = .error e := by
  unfold paml_pair_set
  simp only [List.foldlM_cons, h]
  rfl

/-- Witness for the amended C6: the unreadable `gUnreadable` aborts a batch
that also contains the healthy `gHealthy`. -/
theorem unreadable_file_aborts_batch_witness :
    mkPamlPair pyfloat0 gUnreadable = Except.error PyAbort.systemExit ∧
    paml_pair_set pyfloat0 [gUnreadable, gHealthy] =
      Except.error PyAbort.systemExit :=
  ⟨rfl,
   unreadable_file_aborts_batch pyfloat0 gUnreadable [gHealthy] .systemExit rfl⟩

/-- A key present among an association list's keys is found by `lookup`. -/
theorem lookup_isSome_of_mem_keys {β : Type} (k : String)
    (l : List (String × β)) (h : k ∈ l.map Prod.fst) :
    (l.lookup k).isSome = true := by
  induction l with
  | nil => simp at h
  | cons a t ih =>
    obtain ⟨ka, vb⟩ := a
    rw [List.map_cons, List.mem_cons] at h
    by_cases hk : k = ka
    · subst hk
      simp [List.lookup]
    · have hne : (k == ka) = false := beq_false_of_ne hk
      rcases h with h | h
      · exact absurd h hk
      · simpa [List.lookup, hne] using ih h

/-- Every record carries a defined p-value inside `[0, 1]` after its
likelihood-ratio test (for a CDF valued in `[0, 1]`). -/
theorem lrt_pvalue_bounds (chi2cdf : ℚ → ℚ) (p : PamlPair)
    (hc : ∀ x, 0 ≤ chi2cdf x ∧ chi2cdf x ≤ 1) :
    (likelihood_ratio_test chi2cdf p).pvalue.isSome = true ∧
    0 ≤ (likelihood_ratio_test chi2cdf p).pvalue.getD 0 ∧
    (likelihood_ratio_test chi2cdf p).pvalue.getD 0 ≤ 1 := by
  unfold likelihood_ratio_test
  cases ha : p.alternative_lnL with
  | none => simp
  | some a =>
    cases hn : p.null_lnL with
    | none => simp
    | some n =>
      dsimp only
      split
      · simp
      · simp only [Option.isSome_some, Option.getD_some]
        obtain ⟨h1, h2⟩ := hc (2 * (a - n))
        exact ⟨trivial, by linarith, by linarith⟩

/-- C10: after `likelihood_ratio_test` has run on every record, each
record's p-value is defined and lies in `[0, 1]` (for a chi-square CDF
valued in `[0, 1]`), so `fdr_correction`'s collection keeps every record and
— `multipletests` being length-preserving — every record also receives an
adjusted FDR value. -/
theorem pvalues_defined_and_bounded (chi2cdf : ℚ → ℚ) (mt : List ℚ → List ℚ)
    (pairs : List (String × PamlPair))
    (hc : ∀ x, 0 ≤ chi2cdf x ∧ chi2cdf x ≤ 1)
    (hm : ∀ l, (mt l).length = l.length) :
    ((fdr_correction mt (test_selection chi2cdf pairs)).all (fun g =>
      g.2.pvalue.isSome && decide (0 ≤ g.2.pvalue.getD 0) &&
      decide (g.2.pvalue.getD 0 ≤ 1) && g.2.fdr_value.isSome)) = true := by
  have hall : ∀ g ∈ test_selection chi2cdf pairs,
      g.2.pvalue.isSome = true ∧ 0 ≤ g.2.pvalue.getD 0 ∧
      g.2.pvalue.getD 0 ≤ 1 := by
    intro g hg
    obtain ⟨g0, _, rfl⟩ := List.mem_map.mp hg
    exact lrt_pvalue_bounds chi2cdf g0.2 hc
  set ps := test_selection chi2cdf pairs with hps
  unfold fdr_correction
  simp only
  have hfilter : ps.filter (fun g => g.2.pvalue.isSome) = ps :=
    List.filter_eq_self.mpr (fun g hg => (hall g hg).1)
  rw [hfilter]
  have hlen : ((ps.map (fun g => (g.1, g.2.pvalue.getD 0))).map
        (fun g => g.1)).length ≤
      (mt ((ps.map (fun g => (g.1, g.2.pvalue.getD 0))).map
        (fun g => g.2))).length := by
    rw [hm]
    simp
  have hfst := List.map_fst_zip
    ((ps.map (fun g => (g.1, g.2.pvalue.getD 0))).map (fun g => g.1))
    (mt ((ps.map (fun g => (g.1, g.2.pvalue.getD 0))).map (fun g => g.2)))
    hlen
  rw [List.all_eq_true]
  intro g hg
  obtain ⟨g0, hg0, rfl⟩ := List.mem_map.mp hg
  have hkey : g0.1 ∈ (((ps.map (fun g => (g.1, g.2.pvalue.getD 0))).map
        (fun g => g.1)).zip
      (mt ((ps.map (fun g => (g.1, g.2.pvalue.getD 0))).map
        (fun g => g.2)))).map Prod.fst := by
    rw [hfst, List.map_map]
    exact List.mem_map.mpr ⟨g0, hg0, rfl⟩
  have hsome := lookup_isSome_of_mem_keys _ _ hkey
  obtain ⟨hA, hB, hC⟩ := hall g0 hg0
  cases hlk : ((((ps.map (fun g => (g.1, g.2.pvalue.getD 0))).map
        (fun g => g.1)).zip
      (mt ((ps.map (fun g => (g.1, g.2.pvalue.getD 0))).map
        (fun g => g.2)))).lookup g0.1) with
  | none => rw [hlk] at hsome; cases hsome
  | some v =>
    simp only [Bool.and_eq_true, decide_eq_true_eq, Option.isSome_some]
    exact ⟨⟨⟨hA, hB⟩, hC⟩, trivial⟩

/-- Witness for C10 on a two-gene batch with a constant 1/2 CDF and the
identity correction. -/
theorem pvalues_defined_and_bounded_witness :
    ((fdr_correction id (test_selection cdfHalf pairsTwo)).all (fun g =>
      g.2.pvalue.isSome && decide (0 ≤ g.2.pvalue.getD 0) &&
      decide (g.2.pvalue.getD 0 ≤ 1) && g.2.fdr_value.isSome)) = true :=
  pvalues_defined_and_bounded cdfHalf id pairsTwo
    (fun x => by constructor <;> norm_num [cdfHalf])
    (fun l => rfl)

end SlimCodeml
